import Mathlib

/-!
Verification of the CoReason Constitution compliance engine.

This file gives a shallow embedding of the governance core found in
`coreason_constitution` (`archive.py`, `judge.py`, `core.py`,
`utils/diff.py`) and proves properties of it.  Python objects become Lean
structures; Python exceptions become `Except`/`Option` results; the external
LLM collaborators (judge client, revision engine) and the Sentinel guard are
abstracted as function parameters, exactly at the call boundaries the source
uses.  Components that the sources import but whose definitions are not part
of the available tree (the `Critique` / trace models, `SentinelRule`, the
Sentinel and the LLM interface) are modelled from the specification and are
marked as such in their doc comments.
-/

/-! ## Data model (schema.py, plus spec-modelled records) -/

/-- `LawCategory` enum from `schema.py`. -/
inductive LawCategory where
  | UNIVERSAL
  | DOMAIN
  | TENANT
deriving DecidableEq, Repr

/-- `LawSeverity` enum from `schema.py`. -/
inductive LawSeverity where
  | LOW
  | MEDIUM
  | HIGH
  | CRITICAL
deriving DecidableEq, Repr

/-- `Law` model from `schema.py`: id (min_length 1), category, text
(min_length 1), severity (default Medium), tags (default empty),
source (optional).  The `min_length` constraints are enforced by
`validateLaw` below, mirroring pydantic validation at parse time. -/
structure Law where
  id : String
  category : LawCategory
  text : String
  severity : LawSeverity := LawSeverity.MEDIUM
  tags : List String := []
  source : Option String := none
deriving DecidableEq, Repr

/-- Modelled from the spec: the `SentinelRule` (GuardRule) record — id,
regular-expression pattern, description and exempt groups.  `schema.py` in
the tree predates this model (`archive.py` imports it); only `id` takes part
in the verified claims. -/
structure SentinelRule where
  id : String
  pattern : String
  description : String := ""
  exempt_groups : List String := []
deriving DecidableEq, Repr

/-- Modelled from the spec: the `Critique` record produced by the evaluator —
violation flag, optional article id, severity (default Low), reasoning.
`schema.py` in the tree predates this model (`core.py` and `judge.py` import
it). -/
structure Critique where
  violation : Bool
  article_id : Option String := none
  severity : LawSeverity := LawSeverity.LOW
  reasoning : String
deriving DecidableEq, Repr

/-- Modelled from the spec: one evaluate→revise round of the trace history. -/
structure TraceIteration where
  input_draft : String
  critique : Critique
  revised_output : String
deriving DecidableEq, Repr

/-- Modelled from the spec: the `ConstitutionalTrace` record.  `core.py`
constructs it passing exactly `input_draft`, `critique`, `revised_output`
and `delta`; `history` (spec §3) therefore always keeps its empty default in
the embedded code. -/
structure ConstitutionalTrace where
  input_draft : String
  critique : Critique
  revised_output : String
  delta : Option String
  history : List TraceIteration := []
deriving DecidableEq, Repr

/-- The `LegislativeArchive` state from `archive.py`: `_laws`,
`_sentinel_rules` and `_version` (initialised to `"0.0.0"`). -/
structure LegislativeArchive where
  laws : List Law := []
  sentinelRules : List SentinelRule := []
  version : String := "0.0.0"
deriving DecidableEq, Repr

/-! ## utils/diff.py -/

/-- Accumulator-based splitter behind `pySplitlines`.  The accumulator holds
the current (reversed) partial line. -/
def pySplitlinesAux : List Char → List Char → List (List Char)
  | [], acc => if acc.isEmpty then [] else [acc.reverse]
  | c :: rest, acc =>
    if c = '\n' then (c :: acc).reverse :: pySplitlinesAux rest []
    else pySplitlinesAux rest (c :: acc)

/-- Models Python `str.splitlines(keepends=True)` as used by
`compute_unified_diff`, with the line-boundary set restricted to `'\n'`
(the remaining Python boundary characters play no role in the verified
properties).  Every character of the input is retained, so joining the
lines returns the original string. -/
def pySplitlines (s : String) : List String :=
  (pySplitlinesAux s.data []).map String.mk

/-- Python `"".join(parts)`: plain concatenation of a list of strings. -/
def strConcat : List String → String
  | [] => ""
  | s :: rest => s ++ strConcat rest

/-- Models the hunk body emitted by Python `difflib.unified_diff` for two
differing line sequences: a single full-replacement hunk (a range header
followed by the removed and added lines).  The model agrees with `difflib`
on the property the source relies on: the diff is empty exactly when the two
line sequences are equal, and otherwise starts with the two file headers. -/
def unifiedDiffBody (a b : List String) : List String :=
  ("@@ -1," ++ toString a.length ++ " +1," ++ toString b.length ++ " @@") ::
    (a.map (fun l => "-" ++ l) ++ b.map (fun l => "+" ++ l))

/-- Models Python `difflib.unified_diff(a, b, fromfile="original",
tofile="revised", lineterm="")` (as invoked by `compute_unified_diff`):
no output at all when the sequences are equal, otherwise the
`--- original` / `+++ revised` headers followed by a hunk. -/
def unifiedDiff (a b : List String) : List String :=
  if a = b then []
  else "--- original" :: "+++ revised" :: unifiedDiffBody a b

/-- `compute_unified_diff` from `utils/diff.py`: split both strings into
lines (keepends), run the unified diff, return `none` when the diff is
empty and the joined diff text otherwise. -/
def compute_unified_diff (original revised : String) : Option String :=
  let diff := unifiedDiff (pySplitlines original) (pySplitlines revised)
  if diff.isEmpty then none else some (strConcat diff)

/-! ## archive.py: get_laws -/

/-- The context-tag predicate of `get_laws`
(`not law.tags or not set(law.tags).isdisjoint(context_set)`): a law passes
when its tag list is empty or shares at least one tag with the context. -/
def lawPassesContext (l : Law) (ctx : List String) : Bool :=
  l.tags.isEmpty || l.tags.any fun t => ctx.contains t

/-- `LegislativeArchive.get_laws` from `archive.py`.  The category filter is
guarded by Python truthiness (`if categories:`), so both `None` and an empty
list skip it; the context filter is guarded by `is not None`, so an empty
tag list still filters. -/
def LegislativeArchive.get_laws (a : LegislativeArchive)
    (categories : Option (List LawCategory))
    (context_tags : Option (List String)) : List Law :=
  let afterCategory :=
    match categories with
    | some cs => if cs.isEmpty then a.laws else a.laws.filter fun l => cs.contains l.category
    | none => a.laws
  match context_tags with
  | some ctx => afterCategory.filter fun l => lawPassesContext l ctx
  | none => afterCategory

/-! ## judge.py: ConstitutionalJudge.evaluate -/

/-- Drop leading whitespace characters from a character list. -/
def dropLeadingWhitespace : List Char → List Char
  | [] => []
  | c :: rest => if c.isWhitespace then dropLeadingWhitespace rest else c :: rest

/-- Models Python `str.strip()` (as used in `if not draft.strip():`):
remove whitespace from both ends of the string. -/
def pyStrip (s : String) : String :=
  String.mk ((dropLeadingWhitespace (dropLeadingWhitespace s.data).reverse).reverse)

/-- The post-validation sanity check of `judge.py`: when the LLM reports a
violation without a usable article id (`None` or empty — Python falsiness),
the id defaults to `"UNKNOWN"`. -/
def judgePostValidate (c : Critique) : Critique :=
  if c.violation = true ∧ (c.article_id = none ∨ c.article_id = some "") then
    { c with article_id := some "UNKNOWN" }
  else c

/-- `ConstitutionalJudge.evaluate` from `judge.py`.  The LLM client
(`interfaces.py`, absent from the tree) is abstracted at the call boundary:
`llm` is the outcome of `client.structured_output(...)` — either a parsed
`Critique` or the message of a raised exception.  The returned `Nat` counts
how often the LLM client was invoked (0 or 1).  The two guard branches
mirror `if not draft.strip():` and `if not laws:`; the exception handler
yields the `SYSTEM_ERROR` critique. -/
def ConstitutionalJudge.evaluate (draft : String) (laws : List Law)
    (llm : Except String Critique) : Critique × Nat :=
  if pyStrip draft = "" then
    ({ violation := false, article_id := none, severity := LawSeverity.LOW,
       reasoning := "Draft is empty; no content to evaluate." }, 0)
  else if laws.isEmpty then
    ({ violation := false, article_id := none, severity := LawSeverity.LOW,
       reasoning := "No laws provided for evaluation." }, 0)
  else
    match llm with
    | Except.ok c => (judgePostValidate c, 1)
    | Except.error e =>
        ({ violation := true, article_id := some "SYSTEM_ERROR",
           severity := LawSeverity.CRITICAL,
           reasoning := "System Error during evaluation: " ++ e }, 1)

/-! ## core.py: ConstitutionalSystem.run_compliance_cycle -/

/-- Return-site classification of `run_compliance_cycle`, following the
method's own docstring: the Sentinel path returns "an immediate Refusal
trace" (the blocked disposition), the compliant path an "Approved trace",
and the violation path the outcome of the revision step. -/
inductive Disposition where
  | refusal
  | approved
  | revised
deriving DecidableEq, Repr

/-- The trace returned by a compliance cycle together with its return-site
disposition and the number of judge / revision-engine invocations the run
performed. -/
structure CycleResult where
  disposition : Disposition
  trace : ConstitutionalTrace
  judgeCalls : Nat
  reviserCalls : Nat
deriving DecidableEq, Repr

/-- `ConstitutionalSystem.run_compliance_cycle` from `core.py`, embedded
with its collaborators at their call boundaries:
`sentinelCheck inputPrompt` is `none` when `Sentinel.check` returns and
`some msg` when it raises `SecurityException(msg)` (the Sentinel itself is
absent from the tree; the spec's Guard either passes or raises);
`judge` is `self.judge.evaluate`; `revise d c laws` is the outcome of
`self.revision_engine.revise(d, c, laws)` — a result string or the message
of a raised exception, which the source converts into the fixed
`"Error: Constitutional Revision failed. Content withheld."` output.
The structure is the source's: Sentinel check, law fetch via `get_laws`
(all categories, the given context tags), a single judge evaluation, and —
on violation — a single revision followed by a diff.  The post-Sentinel
phases (steps 2-5 of the source) live in `runPostSentinel`: fetch the
active laws, evaluate the draft once, return the approved trace on
compliance, and otherwise perform the single revision (substituting the
fixed error message when the revision engine raises) followed by the
diff. -/
def runPostSentinel
    (archive : LegislativeArchive)
    (judge : String → List Law → Critique)
    (revise : String → Critique → List Law → Except String String)
    (draft_response : String)
    (context_tags : Option (List String)) : CycleResult :=
  let activeLaws := archive.get_laws none context_tags
  let critique := judge draft_response activeLaws
  if critique.violation = false then
    { disposition := Disposition.approved,
      trace := { input_draft := draft_response, critique := critique,
                 revised_output := draft_response, delta := none, history := [] },
      judgeCalls := 1, reviserCalls := 0 }
  else
    let revisedOutput :=
      match revise draft_response critique activeLaws with
      | Except.ok r => r
      | Except.error _ => "Error: Constitutional Revision failed. Content withheld."
    let delta := compute_unified_diff draft_response revisedOutput
    { disposition := Disposition.revised,
      trace := { input_draft := draft_response, critique := critique,
                 revised_output := revisedOutput, delta := delta, history := [] },
      judgeCalls := 1, reviserCalls := 1 }

def ConstitutionalSystem.run_compliance_cycle
    (sentinelCheck : String → Option String)
    (archive : LegislativeArchive)
    (judge : String → List Law → Critique)
    (revise : String → Critique → List Law → Except String String)
    (input_prompt draft_response : String)
    (context_tags : Option (List String)) : CycleResult :=
  match sentinelCheck input_prompt with
  | some err =>
      let reason := if err = "" then "Unknown Security Protocol Violation" else err
      let critique : Critique :=
        { violation := true, article_id := some "SENTINEL_BLOCK",
          severity := LawSeverity.CRITICAL, reasoning := reason }
      { disposition := Disposition.refusal,
        trace := { input_draft := draft_response, critique := critique,
                   revised_output := reason, delta := none, history := [] },
        judgeCalls := 0, reviserCalls := 0 }
  | none => runPostSentinel archive judge revise draft_response context_tags

/-! ## archive.py: load_from_directory -/

/-- Pydantic field validation for `Law` (`min_length=1` on `id` and
`text`); a failing element raises, which `load_from_directory` converts
into a load error for the whole file. -/
def validateLaw (l : Law) : Except String Law :=
  if l.id = "" then Except.error "Law validation failed: id must be non-empty"
  else if l.text = "" then Except.error "Law validation failed: text must be non-empty"
  else Except.ok l

/-- Validate a list of laws; the first failing element aborts. -/
def validateLaws : List Law → Except String (List Law)
  | [] => Except.ok []
  | l :: rest =>
    match validateLaw l with
    | Except.error e => Except.error e
    | Except.ok v =>
      match validateLaws rest with
      | Except.error e => Except.error e
      | Except.ok vs => Except.ok (v :: vs)

/-- Validation for a `SentinelRule` (non-empty id, mirroring the unique-id
requirement of the spec's GuardRule). -/
def validateRule (r : SentinelRule) : Except String SentinelRule :=
  if r.id = "" then Except.error "SentinelRule validation failed: id must be non-empty"
  else Except.ok r

/-- Validate a list of sentinel rules; the first failing element aborts. -/
def validateRules : List SentinelRule → Except String (List SentinelRule)
  | [] => Except.ok []
  | r :: rest =>
    match validateRule r with
    | Except.error e => Except.error e
    | Except.ok v =>
      match validateRules rest with
      | Except.error e => Except.error e
      | Except.ok vs => Except.ok (v :: vs)

/-- The shape of one parsed data file, after the structural classification
`load_from_directory` performs on the decoded JSON: a `Constitution` bundle
(a dict carrying `version` and `laws`/`sentinel_rules`), a bare list of
laws, a single law object, or an unparseable file (`json.loads` or decoding
raised, with the exception message). -/
inductive FileEntry where
  | constitution (version : String) (laws : List Law) (sentinelRules : List SentinelRule)
  | lawList (laws : List Law)
  | singleLaw (law : Law)
  | malformed (err : String)
deriving DecidableEq, Repr

/-- Per-file parsing of `load_from_directory`: produce the file's new laws,
new sentinel rules, and — for a `Constitution` bundle — its version.
Validation of every element happens here (pydantic construction); any
failure aborts the file. -/
def parseFile : FileEntry → Except String (List Law × List SentinelRule × Option String)
  | FileEntry.malformed e => Except.error e
  | FileEntry.constitution v laws rules =>
    match validateLaws laws with
    | Except.error e => Except.error e
    | Except.ok ls =>
      match validateRules rules with
      | Except.error e => Except.error e
      | Except.ok rs => Except.ok (ls, rs, some v)
  | FileEntry.lawList laws =>
    match validateLaws laws with
    | Except.error e => Except.error e
    | Except.ok ls => Except.ok (ls, [], none)
  | FileEntry.singleLaw l =>
    match validateLaw l with
    | Except.error e => Except.error e
    | Except.ok v => Except.ok ([v], [], none)

/-- The per-file duplicate check over laws (`loaded_ids` set): walk the
file's laws in order, failing on the first id already loaded in this
operation, otherwise appending to the accumulated laws and ids. -/
def checkDupLaws (path : String) : List String → List Law → List Law →
    Except String (List Law × List String)
  | ids, acc, [] => Except.ok (acc, ids)
  | ids, acc, l :: rest =>
    if ids.contains l.id then
      Except.error ("Duplicate Law ID detected: " ++ l.id ++ " in " ++ path)
    else checkDupLaws path (l.id :: ids) (acc ++ [l]) rest

/-- The per-file duplicate check over sentinel rules (`loaded_rule_ids`). -/
def checkDupRules (path : String) : List String → List SentinelRule → List SentinelRule →
    Except String (List SentinelRule × List String)
  | ids, acc, [] => Except.ok (acc, ids)
  | ids, acc, r :: rest =>
    if ids.contains r.id then
      Except.error ("Duplicate Sentinel Rule ID detected: " ++ r.id ++ " in " ++ path)
    else checkDupRules path (r.id :: ids) (acc ++ [r]) rest

/-- The file loop of `load_from_directory`.  `cur` is the live archive
object: the loop mutates only its `version` (assigned as soon as a
`Constitution` bundle parses, before the duplicate checks), while `laws`
and `sentinelRules` are replaced only after every file succeeded.  Any
error inside a file's processing is wrapped as
`"Failed to parse <path>: <cause>"` and aborts the load, returning the
archive object in its current (possibly version-mutated) state. -/
def loadGo (cur : LegislativeArchive) (loadedLaws : List Law) (loadedIds : List String)
    (loadedRules : List SentinelRule) (loadedRuleIds : List String) :
    List (String × FileEntry) → Except (String × LegislativeArchive) LegislativeArchive
  | [] => Except.ok { cur with laws := loadedLaws, sentinelRules := loadedRules }
  | (path, entry) :: rest =>
    match parseFile entry with
    | Except.error e => Except.error ("Failed to parse " ++ path ++ ": " ++ e, cur)
    | Except.ok (newLaws, newRules, vOpt) =>
      let cur' := match vOpt with
        | some v => { cur with version := v }
        | none => cur
      match checkDupLaws path loadedIds loadedLaws newLaws with
      | Except.error e => Except.error ("Failed to parse " ++ path ++ ": " ++ e, cur')
      | Except.ok (laws', ids') =>
        match checkDupRules path loadedRuleIds loadedRules newRules with
        | Except.error e => Except.error ("Failed to parse " ++ path ++ ": " ++ e, cur')
        | Except.ok (rules', ruleIds') => loadGo cur' laws' ids' rules' ruleIds' rest

/-- `LegislativeArchive.load_from_directory` from `archive.py`.  The
directory is the recursive `rglob` listing: `none` when the root does not
exist (`FileNotFoundError`), otherwise the `(path, parsed content)` pairs
in enumeration order.  On failure the error carries the archive object as
the operation left it (Python raises out of the method, leaving the
mutated `self`); on success the accumulated laws and rules replace the
previous ones. -/
def LegislativeArchive.load_from_directory (a : LegislativeArchive)
    (dir : Option (List (String × FileEntry))) :
    Except (String × LegislativeArchive) LegislativeArchive :=
  match dir with
  | none => Except.error ("Directory not found", a)
  | some files => loadGo a [] [] [] [] files

/-- The laws one parsed file contributes to a load (a `Constitution`
bundle's laws, a bare list, or a single law; a malformed file contributes
nothing — it aborts the load instead). -/
def fileLaws : FileEntry → List Law
  | FileEntry.constitution _ laws _ => laws
  | FileEntry.lawList laws => laws
  | FileEntry.singleLaw l => [l]
  | FileEntry.malformed _ => []

/-- The sentinel rules one parsed file contributes to a load. -/
def fileRules : FileEntry → List SentinelRule
  | FileEntry.constitution _ _ rules => rules
  | FileEntry.lawList _ => []
  | FileEntry.singleLaw _ => []
  | FileEntry.malformed _ => []

/-- All laws a directory listing carries, in file order: the pool over
which the load's global per-kind duplicate detection operates. -/
def dirLaws : List (String × FileEntry) → List Law
  | [] => []
  | (_, entry) :: rest => fileLaws entry ++ dirLaws rest

/-- All sentinel rules a directory listing carries, in file order. -/
def dirRules : List (String × FileEntry) → List SentinelRule
  | [] => []
  | (_, entry) :: rest => fileRules entry ++ dirRules rest

/-! ## Reading of the spec's `get_rules` contract (claim C5) -/

/-- The filter contract exactly as claim C5 words it: a law is returned iff
(a) when `categories` is given the law's category is a member of it, and
(b) the context rule — `none` passes everything, an explicit list passes a
law whose tag set is empty or intersects it. -/
def get_laws_claimC5 (a : LegislativeArchive)
    (categories : Option (List LawCategory))
    (context_tags : Option (List String)) : List Law :=
  a.laws.filter fun l =>
    (match categories with
     | some cs => cs.contains l.category
     | none => true)
    && (match context_tags with
        | none => true
        | some ctx => lawPassesContext l ctx)

/-- Claim C5 amended at the one point the code forces: an empty (but given)
`categories` collection applies no category filter, because the source
guards the filter with Python truthiness (`if categories:`). -/
def get_laws_claimC5_amended (a : LegislativeArchive)
    (categories : Option (List LawCategory))
    (context_tags : Option (List String)) : List Law :=
  a.laws.filter fun l =>
    (match categories with
     | some cs => cs.isEmpty || cs.contains l.category
     | none => true)
    && (match context_tags with
        | none => true
        | some ctx => lawPassesContext l ctx)

/-! ## Concrete fixtures used by witnesses and counterexamples -/

/-- A compliant critique, as an evaluator would return on the happy path. -/
def compliantCritique : Critique :=
  { violation := false, article_id := none,
    severity := LawSeverity.LOW, reasoning := "Compliant" }

/-- A violating critique, as an evaluator returns on a flagged draft
(mirrors the always-violating judge of the repository's retry tests). -/
def violatingCritique : Critique :=
  { violation := true, article_id := some "L2",
    severity := LawSeverity.MEDIUM, reasoning := "Still bad" }

/-- A freshly constructed archive: no laws, no sentinel rules,
version `"0.0.0"`. -/
def emptyArchive : LegislativeArchive :=
  { laws := [], sentinelRules := [], version := "0.0.0" }

/-- A valid law reused by the archive fixtures. -/
def fixtureLaw : Law :=
  { id := "DUP.1", category := LawCategory.UNIVERSAL, text := "First definition",
    severity := LawSeverity.MEDIUM, tags := [], source := none }

/-- An untagged universal law for the filtering fixtures. -/
def untaggedLaw : Law :=
  { id := "U1", category := LawCategory.UNIVERSAL, text := "Be nice",
    severity := LawSeverity.MEDIUM, tags := [], source := none }

/-- An archive holding exactly `untaggedLaw`. -/
def singleLawArchive : LegislativeArchive :=
  { laws := [untaggedLaw], sentinelRules := [], version := "1.0" }

/-! ## Helper lemmas: the diff -/

/-- Joining the lines produced by the splitter restores the accumulator
followed by the remaining input: keepends splitting loses no characters. -/
theorem pySplitlinesAux_join (l : List Char) :
    ∀ acc : List Char, (pySplitlinesAux l acc).flatten = acc.reverse ++ l := by
  induction l with
  | nil =>
    intro acc
    cases acc <;> simp [pySplitlinesAux]
  | cons c rest ih =>
    intro acc
    by_cases h : c = '\n'
    · simp [pySplitlinesAux, h, ih]
    · simp [pySplitlinesAux, h, ih]

/-- `pySplitlines` is injective: two strings with the same keepends line
decomposition are equal. -/
theorem pySplitlines_injective {a b : String}
    (h : pySplitlines a = pySplitlines b) : a = b := by
  have hinj : Function.Injective String.mk := fun x y hxy => by injection hxy
  have hdata : pySplitlinesAux a.data [] = pySplitlinesAux b.data [] :=
    (List.map_injective_iff.mpr hinj) h
  have hjoin := congrArg List.flatten hdata
  rw [pySplitlinesAux_join, pySplitlinesAux_join] at hjoin
  simp at hjoin
  cases a
  cases b
  simp at hjoin
  exact congrArg String.mk hjoin

/-- `compute_unified_diff` returns `none` exactly on equal inputs. -/
theorem compute_unified_diff_eq_none_iff (a b : String) :
    compute_unified_diff a b = none ↔ a = b := by
  constructor
  · intro h
    by_cases he : pySplitlines a = pySplitlines b
    · exact pySplitlines_injective he
    · simp [compute_unified_diff, unifiedDiff, he] at h
  · intro h
    subst h
    simp [compute_unified_diff, unifiedDiff]

/-- When `compute_unified_diff` returns a diff, the diff text is non-empty
(it starts with the `--- original` header). -/
theorem compute_unified_diff_some_ne_empty (a b : String) (s : String)
    (h : compute_unified_diff a b = some s) : s ≠ "" := by
  by_cases he : pySplitlines a = pySplitlines b
  · simp [compute_unified_diff, unifiedDiff, he] at h
  · simp [compute_unified_diff, unifiedDiff, he] at h
    intro hempty
    have hlen := congrArg String.length hempty
    rw [← h] at hlen
    simp [strConcat, String.length_append] at hlen
    exact absurd hlen.1 (by decide)

/-! ## Claim theorems -/

/-- Claim C1 (code evaluation at the failing input): with a judge that keeps
reporting a violation and a revision engine that returns a fresh draft,
`run_compliance_cycle` invokes the judge exactly once — the revision is
never re-evaluated — performs exactly one revision, accumulates no history,
and returns the unchecked revision as the output.  The claimed retry loop
(up to `max_retries` rounds, each appending a `TraceIteration` and
re-evaluating) does not exist in the code: the method takes no `max_retries`
parameter at all, although its caller in `server.py` and the repository's
own tests pass one. -/
theorem c1_single_revision_no_reevaluation :
    (ConstitutionalSystem.run_compliance_cycle (fun _ => none) emptyArchive
        (fun _ _ => violatingCritique) (fun _ _ _ => Except.ok "Tried my best")
        "Maybe bad" "Dubious content" none).judgeCalls = 1
    ∧ (ConstitutionalSystem.run_compliance_cycle (fun _ => none) emptyArchive
        (fun _ _ => violatingCritique) (fun _ _ _ => Except.ok "Tried my best")
        "Maybe bad" "Dubious content" none).reviserCalls = 1
    ∧ (ConstitutionalSystem.run_compliance_cycle (fun _ => none) emptyArchive
        (fun _ _ => violatingCritique) (fun _ _ _ => Except.ok "Tried my best")
        "Maybe bad" "Dubious content" none).trace.history = []
    ∧ (ConstitutionalSystem.run_compliance_cycle (fun _ => none) emptyArchive
        (fun _ _ => violatingCritique) (fun _ _ _ => Except.ok "Tried my best")
        "Maybe bad" "Dubious content" none).trace.revised_output = "Tried my best" := by
  refine ⟨rfl, rfl, rfl, rfl⟩

/-- Claim C2 (code evaluation at the failing input): when the revision
engine raises, `run_compliance_cycle` substitutes the fixed error message as
output but then still diffs it against the draft, so the returned trace has
`delta ≠ none` (the claim requires `delta = none`), carries no status
marking the outcome as blocked (the trace goes out through the ordinary
revision return site), and its history is empty only because the code keeps
no history at all. -/
theorem c2_revision_failure_not_blocked :
    (ConstitutionalSystem.run_compliance_cycle (fun _ => none) emptyArchive
        (fun _ _ => violatingCritique) (fun _ _ _ => Except.error "LLM Error")
        "Bad prompt" "Bad response" none).trace.revised_output
      = "Error: Constitutional Revision failed. Content withheld."
    ∧ (ConstitutionalSystem.run_compliance_cycle (fun _ => none) emptyArchive
        (fun _ _ => violatingCritique) (fun _ _ _ => Except.error "LLM Error")
        "Bad prompt" "Bad response" none).trace.delta ≠ none
    ∧ (ConstitutionalSystem.run_compliance_cycle (fun _ => none) emptyArchive
        (fun _ _ => violatingCritique) (fun _ _ _ => Except.error "LLM Error")
        "Bad prompt" "Bad response" none).disposition = Disposition.revised := by
  refine ⟨rfl, ?_, rfl⟩
  decide

/-- Claim C3: whenever the Sentinel raises on the input prompt,
`run_compliance_cycle` returns through the immediate refusal site with a
synthetic critique — `violation = true`, severity Critical, reasoning the
guard's error message (or the fixed fallback when that message is empty) —
and a trace with `input_draft` the draft, `revised_output` the reasoning,
`delta = none` and empty history; the judge and the revision engine are
never invoked. -/
theorem c3_sentinel_block_immediate
    (sentinelCheck : String → Option String) (archive : LegislativeArchive)
    (judge : String → List Law → Critique)
    (revise : String → Critique → List Law → Except String String)
    (input_prompt draft_response : String) (context_tags : Option (List String))
    (msg : String) (h : sentinelCheck input_prompt = some msg) :
    (ConstitutionalSystem.run_compliance_cycle sentinelCheck archive judge revise
        input_prompt draft_response context_tags)
      = { disposition := Disposition.refusal,
          trace :=
            { input_draft := draft_response,
              critique :=
                { violation := true, article_id := some "SENTINEL_BLOCK",
                  severity := LawSeverity.CRITICAL,
                  reasoning := if msg = "" then "Unknown Security Protocol Violation" else msg },
              revised_output := if msg = "" then "Unknown Security Protocol Violation" else msg,
              delta := none, history := [] },
          judgeCalls := 0, reviserCalls := 0 }
    ∧ (if msg = "" then "Unknown Security Protocol Violation" else msg) ≠ "" := by
  constructor
  · unfold ConstitutionalSystem.run_compliance_cycle
    rw [h]
  · by_cases hm : msg = "" <;> simp [hm]

/-- Witness for C3 at a concrete guard block. -/
theorem c3_sentinel_block_immediate_witness :
    (ConstitutionalSystem.run_compliance_cycle (fun _ => some "Red line crossed")
        emptyArchive (fun _ _ => compliantCritique) (fun _ _ _ => Except.ok "unused")
        "Generate a SQL injection." "Here is the SQL..." none)
      = { disposition := Disposition.refusal,
          trace :=
            { input_draft := "Here is the SQL...",
              critique :=
                { violation := true, article_id := some "SENTINEL_BLOCK",
                  severity := LawSeverity.CRITICAL, reasoning := "Red line crossed" },
              revised_output := "Red line crossed",
              delta := none, history := [] },
          judgeCalls := 0, reviserCalls := 0 } := by
  have h := c3_sentinel_block_immediate (fun _ => some "Red line crossed")
    emptyArchive (fun _ _ => compliantCritique) (fun _ _ _ => Except.ok "unused")
    "Generate a SQL injection." "Here is the SQL..." none "Red line crossed" rfl
  simpa using h.1

/-- Claim C7 counterexample: a draft that happens to equal the Sentinel's
error message is blocked with `revised_output` equal to that draft — the
claim's universal "revised_output is never equal to draft_response" is
false.  (The Sentinel's message for a matched rule is independent of the
draft, so the coincidence is reachable: here the guard raises its usual
security-violation message and the draft is that very string.) -/
theorem c7_counterexample :
    (ConstitutionalSystem.run_compliance_cycle
        (fun _ => some "Security Protocol Violation: SR.1. Request denied.")
        emptyArchive (fun _ _ => compliantCritique) (fun _ _ _ => Except.ok "unused")
        "Generate a SQL injection."
        "Security Protocol Violation: SR.1. Request denied." none).disposition
      = Disposition.refusal
    ∧ (ConstitutionalSystem.run_compliance_cycle
        (fun _ => some "Security Protocol Violation: SR.1. Request denied.")
        emptyArchive (fun _ _ => compliantCritique) (fun _ _ _ => Except.ok "unused")
        "Generate a SQL injection."
        "Security Protocol Violation: SR.1. Request denied." none).trace.revised_output
      = (ConstitutionalSystem.run_compliance_cycle
        (fun _ => some "Security Protocol Violation: SR.1. Request denied.")
        emptyArchive (fun _ _ => compliantCritique) (fun _ _ _ => Except.ok "unused")
        "Generate a SQL injection."
        "Security Protocol Violation: SR.1. Request denied." none).trace.input_draft := by
  exact ⟨rfl, rfl⟩

/-- Claim C7 amended: on a guard block the trace's `revised_output` is the
guard reasoning (the error message, or the fixed fallback when the message
is empty), a string independent of the draft; consequently it differs from
`draft_response` whenever the draft differs from that reasoning string. -/
theorem c7_blocked_output_is_guard_reason
    (sentinelCheck : String → Option String) (archive : LegislativeArchive)
    (judge : String → List Law → Critique)
    (revise : String → Critique → List Law → Except String String)
    (input_prompt draft_response : String) (context_tags : Option (List String))
    (msg : String) (h : sentinelCheck input_prompt = some msg) :
    (ConstitutionalSystem.run_compliance_cycle sentinelCheck archive judge revise
        input_prompt draft_response context_tags).trace.revised_output
      = (if msg = "" then "Unknown Security Protocol Violation" else msg)
    ∧ (draft_response ≠ (if msg = "" then "Unknown Security Protocol Violation" else msg) →
        (ConstitutionalSystem.run_compliance_cycle sentinelCheck archive judge revise
            input_prompt draft_response context_tags).trace.revised_output
          ≠ draft_response) := by
  have hrun : (ConstitutionalSystem.run_compliance_cycle sentinelCheck archive judge revise
      input_prompt draft_response context_tags).trace.revised_output
      = (if msg = "" then "Unknown Security Protocol Violation" else msg) := by
    unfold ConstitutionalSystem.run_compliance_cycle
    rw [h]
  refine ⟨hrun, fun hne contra => hne ?_⟩
  rw [← hrun, contra]

/-- Witness for the amended C7 at a concrete guard block with a draft that
differs from the guard reasoning. -/
theorem c7_blocked_output_is_guard_reason_witness :
    (ConstitutionalSystem.run_compliance_cycle (fun _ => some "Red line crossed")
        emptyArchive (fun _ _ => compliantCritique) (fun _ _ _ => Except.ok "unused")
        "bad prompt" "An innocuous draft" none).trace.revised_output
      ≠ "An innocuous draft" := by
  have h := c7_blocked_output_is_guard_reason (fun _ => some "Red line crossed")
    emptyArchive (fun _ _ => compliantCritique) (fun _ _ _ => Except.ok "unused")
    "bad prompt" "An innocuous draft" none "Red line crossed" rfl
  exact h.2 (by decide)

/-- Claim C5 counterexample: with `categories` given as the empty
collection, `get_laws` skips the category filter (Python truthiness of the
empty list) and returns the law, while the claim's reading — category must
be a member of the given collection — returns nothing. -/
theorem c5_counterexample :
    singleLawArchive.get_laws (some []) none
      ≠ get_laws_claimC5 singleLawArchive (some []) none := by
  decide

/-- Claim C5 amended: `get_laws` returns exactly the loaded laws passing
both filters, where a given-but-empty `categories` collection applies no
category filter, and the context filter is exactly as the claim states
(omitted passes all; the empty collection passes only untagged laws;
otherwise untagged-or-intersecting). -/
theorem c5_get_laws_filter_amended (a : LegislativeArchive)
    (categories : Option (List LawCategory)) (context_tags : Option (List String)) :
    a.get_laws categories context_tags
      = get_laws_claimC5_amended a categories context_tags := by
  cases categories with
  | none =>
    cases context_tags with
    | none => simp [LegislativeArchive.get_laws, get_laws_claimC5_amended]
    | some ctx => simp [LegislativeArchive.get_laws, get_laws_claimC5_amended]
  | some cs =>
    by_cases hcs : cs.isEmpty
    · cases context_tags with
      | none => simp [LegislativeArchive.get_laws, get_laws_claimC5_amended, hcs]
      | some ctx => simp [LegislativeArchive.get_laws, get_laws_claimC5_amended, hcs]
    · cases context_tags with
      | none => simp [LegislativeArchive.get_laws, get_laws_claimC5_amended, hcs]
      | some ctx =>
        simp [LegislativeArchive.get_laws, get_laws_claimC5_amended, hcs,
          List.filter_filter, Bool.and_comm]

/-- Claim C8: a law with an empty tag set is returned by
`get_laws(context_tags = T)` for every `T` (omitted, empty, or any
collection, overlapping or not), and duplicate elements of `T` never change
the result — the filter only consults membership in `T`. -/
theorem c8_untagged_always_included_and_dedup_invariant :
    (∀ (a : LegislativeArchive) (T : Option (List String)) (R : Law),
        R ∈ a.laws → R.tags = [] → R ∈ a.get_laws none T)
    ∧ (∀ (a : LegislativeArchive) (categories : Option (List LawCategory))
        (T : List String),
        a.get_laws categories (some T) = a.get_laws categories (some T.dedup)) := by
  constructor
  · intro a T R hmem htags
    cases T with
    | none => simpa [LegislativeArchive.get_laws] using hmem
    | some ctx =>
      simp [LegislativeArchive.get_laws, List.mem_filter]
      exact ⟨hmem, by simp [lawPassesContext, htags]⟩
  · intro a categories T
    have hcontains : ∀ t : String, T.dedup.contains t = T.contains t := by
      intro t
      by_cases ht : t ∈ T
      · simp [List.elem_iff, ht]
      · simp [List.elem_iff, ht]
    have hpass : ∀ l : Law, lawPassesContext l T = lawPassesContext l T.dedup := by
      intro l
      simp [lawPassesContext, hcontains]
    cases categories with
    | none =>
      simp only [LegislativeArchive.get_laws]
      exact List.filter_congr fun l _ => hpass l
    | some cs =>
      simp only [LegislativeArchive.get_laws]
      exact List.filter_congr fun l _ => hpass l

/-- Witness for C8: the untagged fixture law is returned for an omitted, an
empty, and a disjoint context, and a duplicated context tag list filters
like its deduplication. -/
theorem c8_untagged_always_included_witness :
    untaggedLaw ∈ singleLawArchive.get_laws none none
    ∧ untaggedLaw ∈ singleLawArchive.get_laws none (some [])
    ∧ untaggedLaw ∈ singleLawArchive.get_laws none (some ["tenant:acme"])
    ∧ singleLawArchive.get_laws none (some ["tenant:acme", "tenant:acme"])
      = singleLawArchive.get_laws none (some (["tenant:acme", "tenant:acme"].dedup)) := by
  have h := c8_untagged_always_included_and_dedup_invariant
  exact ⟨h.1 singleLawArchive none untaggedLaw (by decide) rfl,
         h.1 singleLawArchive (some []) untaggedLaw (by decide) rfl,
         h.1 singleLawArchive (some ["tenant:acme"]) untaggedLaw (by decide) rfl,
         h.2 singleLawArchive none ["tenant:acme", "tenant:acme"]⟩

/-- Claim C6: `ConstitutionalJudge.evaluate` is total — for every draft,
law list and LLM outcome it returns a `Critique` — and whenever the LLM
call is reached and raises, the returned critique is
`violation = true, article_id = "SYSTEM_ERROR"`, severity Critical, with a
non-empty reasoning string. -/
theorem c6_judge_converts_llm_failure
    (draft : String) (laws : List Law) (e : String)
    (hd : pyStrip draft ≠ "") (hl : laws ≠ []) :
    ConstitutionalJudge.evaluate draft laws (Except.error e)
      = ({ violation := true, article_id := some "SYSTEM_ERROR",
           severity := LawSeverity.CRITICAL,
           reasoning := "System Error during evaluation: " ++ e }, 1)
    ∧ ("System Error during evaluation: " ++ e) ≠ ""
    ∧ (∀ llm : Except String Critique, ∃ c : Critique, ∃ n : Nat,
        ConstitutionalJudge.evaluate draft laws llm = (c, n)) := by
  refine ⟨?_, ?_, fun llm => ⟨_, _, rfl⟩⟩
  · have hle : laws.isEmpty = false := by
      cases laws with
      | nil => exact absurd rfl hl
      | cons x xs => rfl
    simp [ConstitutionalJudge.evaluate, hd, hle]
  · intro hcontra
    have hlen := congrArg String.length hcontra
    rw [String.length_append] at hlen
    have h32 : ("System Error during evaluation: ").length = 32 := by decide
    have h0 : ("" : String).length = 0 := by decide
    rw [h32, h0] at hlen
    omega

/-- Witness for C6 at a concrete non-blank draft, non-empty law list and a
raising LLM call. -/
theorem c6_judge_converts_llm_failure_witness :
    ConstitutionalJudge.evaluate "The sky is green" [untaggedLaw]
        (Except.error "connection reset")
      = ({ violation := true, article_id := some "SYSTEM_ERROR",
           severity := LawSeverity.CRITICAL,
           reasoning := "System Error during evaluation: connection reset" }, 1) := by
  have h := c6_judge_converts_llm_failure "The sky is green" [untaggedLaw]
    "connection reset" (by decide) (by decide)
  exact h.1

/-- The judge's short-circuit: a blank draft or an empty law list returns a
no-violation critique without touching the LLM client. -/
theorem judge_short_circuit (draft : String) (laws : List Law)
    (llm : Except String Critique) (h : pyStrip draft = "" ∨ laws = []) :
    (ConstitutionalJudge.evaluate draft laws llm).2 = 0
    ∧ (ConstitutionalJudge.evaluate draft laws llm).1.violation = false := by
  rcases h with hd | hl
  · simp [ConstitutionalJudge.evaluate, hd]
  · subst hl
    by_cases hd : pyStrip draft = "" <;> simp [ConstitutionalJudge.evaluate, hd]

/-- Claim C9: `ConstitutionalJudge.evaluate` short-circuits — LLM client
never invoked, `violation = false` — whenever the draft is blank or the law
list is empty; consequently, a compliance cycle that passes the Sentinel
and whose context-filtered law set is empty returns the approved trace with
the draft unchanged. -/
theorem c9_fail_open_on_empty_laws :
    (∀ (draft : String) (laws : List Law) (llm : Except String Critique),
        (pyStrip draft = "" ∨ laws = []) →
        (ConstitutionalJudge.evaluate draft laws llm).2 = 0
        ∧ (ConstitutionalJudge.evaluate draft laws llm).1.violation = false)
    ∧ (∀ (sentinelCheck : String → Option String) (archive : LegislativeArchive)
        (revise : String → Critique → List Law → Except String String)
        (input_prompt draft_response : String) (context_tags : Option (List String))
        (llm : Except String Critique),
        sentinelCheck input_prompt = none →
        archive.get_laws none context_tags = [] →
        (ConstitutionalSystem.run_compliance_cycle sentinelCheck archive
            (fun d ls => (ConstitutionalJudge.evaluate d ls llm).1) revise
            input_prompt draft_response context_tags)
          = { disposition := Disposition.approved,
              trace :=
                { input_draft := draft_response,
                  critique := (ConstitutionalJudge.evaluate draft_response [] llm).1,
                  revised_output := draft_response, delta := none, history := [] },
              judgeCalls := 1, reviserCalls := 0 }) := by
  refine ⟨fun d ls llm h => judge_short_circuit d ls llm h, ?_⟩
  intro sc archive revise ip dr ctx llm hsent hlaws
  have hv := (judge_short_circuit dr [] llm (Or.inr rfl)).2
  unfold ConstitutionalSystem.run_compliance_cycle
  rw [hsent]
  unfold runPostSentinel
  rw [hlaws]
  simp [hv]

/-- Witness for C9: a cycle over an empty archive approves a concrete draft
unchanged even though the LLM client would raise. -/
theorem c9_fail_open_on_empty_laws_witness :
    (ConstitutionalSystem.run_compliance_cycle (fun _ => none) emptyArchive
        (fun d ls => (ConstitutionalJudge.evaluate d ls (Except.error "boom")).1)
        (fun _ _ _ => Except.ok "unused") "Hello" "Hi there" none)
      = { disposition := Disposition.approved,
          trace :=
            { input_draft := "Hi there",
              critique :=
                { violation := false, article_id := none,
                  severity := LawSeverity.LOW,
                  reasoning := "No laws provided for evaluation." },
              revised_output := "Hi there", delta := none, history := [] },
          judgeCalls := 1, reviserCalls := 0 } := by
  have h := c9_fail_open_on_empty_laws.2 (fun _ => none) emptyArchive
    (fun _ _ _ => Except.ok "unused") "Hello" "Hi there" none
    (Except.error "boom") rfl rfl
  rw [h]
  decide

/-- Claim C10 counterexample: a Sentinel-blocked trace has `delta = none`
while its `revised_output` (the guard reasoning) differs from the draft, so
"delta is None exactly when the revised output is identical to the draft"
is false at this trace. -/
theorem c10_counterexample :
    (ConstitutionalSystem.run_compliance_cycle
        (fun _ => some "Security Protocol Violation: SR.9. Request denied.")
        emptyArchive (fun _ _ => compliantCritique) (fun _ _ _ => Except.ok "unused")
        "prompt" "my draft" none).trace.delta = none
    ∧ (ConstitutionalSystem.run_compliance_cycle
        (fun _ => some "Security Protocol Violation: SR.9. Request denied.")
        emptyArchive (fun _ _ => compliantCritique) (fun _ _ _ => Except.ok "unused")
        "prompt" "my draft" none).trace.revised_output
      ≠ (ConstitutionalSystem.run_compliance_cycle
        (fun _ => some "Security Protocol Violation: SR.9. Request denied.")
        emptyArchive (fun _ _ => compliantCritique) (fun _ _ _ => Except.ok "unused")
        "prompt" "my draft" none).trace.input_draft := by
  exact ⟨rfl, by decide⟩

/-- Claim C10 amended: `compute_unified_diff(original, revised)` is `none`
exactly when the inputs are equal and otherwise a non-empty string; hence
`delta = none ↔ revised_output = input_draft` holds for every trace the
cycle produces outside the Sentinel-refusal path (a guard-blocked trace has
`delta = none` with an output unrelated to the draft). -/
theorem c10_delta_none_iff_unchanged_amended :
    (∀ a b : String, compute_unified_diff a b = none ↔ a = b)
    ∧ (∀ (a b s : String), compute_unified_diff a b = some s → s ≠ "")
    ∧ (∀ (sentinelCheck : String → Option String) (archive : LegislativeArchive)
        (judge : String → List Law → Critique)
        (revise : String → Critique → List Law → Except String String)
        (input_prompt draft_response : String) (context_tags : Option (List String)),
        (ConstitutionalSystem.run_compliance_cycle sentinelCheck archive judge revise
            input_prompt draft_response context_tags).disposition ≠ Disposition.refusal →
        ((ConstitutionalSystem.run_compliance_cycle sentinelCheck archive judge revise
            input_prompt draft_response context_tags).trace.delta = none
          ↔ (ConstitutionalSystem.run_compliance_cycle sentinelCheck archive judge revise
              input_prompt draft_response context_tags).trace.revised_output
            = (ConstitutionalSystem.run_compliance_cycle sentinelCheck archive judge revise
              input_prompt draft_response context_tags).trace.input_draft)) := by
  refine ⟨compute_unified_diff_eq_none_iff, compute_unified_diff_some_ne_empty, ?_⟩
  intro sc archive judge revise ip dr ctx hdisp
  unfold ConstitutionalSystem.run_compliance_cycle at hdisp ⊢
  cases hsc : sc ip with
  | some msg =>
    rw [hsc] at hdisp
    exact absurd rfl hdisp
  | none =>
    rw [hsc] at hdisp
    show (runPostSentinel archive judge revise dr ctx).trace.delta = none ↔ _
    simp only [runPostSentinel]
    by_cases hv : (judge dr (archive.get_laws none ctx)).violation = false
    · rw [if_pos hv]
      simp
    · rw [if_neg hv]
      constructor
      · intro hnone
        exact ((compute_unified_diff_eq_none_iff dr _).mp hnone).symm
      · intro heq
        exact (compute_unified_diff_eq_none_iff dr _).mpr heq.symm

/-- Witness for the amended C10: the equivalence instantiated on a concrete
approved cycle, whose non-refusal hypothesis is discharged by evaluation. -/
theorem c10_delta_none_iff_unchanged_amended_witness :
    ((ConstitutionalSystem.run_compliance_cycle (fun _ => none) emptyArchive
        (fun _ _ => compliantCritique) (fun _ _ _ => Except.ok "unused")
        "p" "d" none).trace.delta = none
      ↔ (ConstitutionalSystem.run_compliance_cycle (fun _ => none) emptyArchive
          (fun _ _ => compliantCritique) (fun _ _ _ => Except.ok "unused")
          "p" "d" none).trace.revised_output
        = (ConstitutionalSystem.run_compliance_cycle (fun _ => none) emptyArchive
            (fun _ _ => compliantCritique) (fun _ _ _ => Except.ok "unused")
            "p" "d" none).trace.input_draft) := by
  exact c10_delta_none_iff_unchanged_amended.2.2 (fun _ => none) emptyArchive
    (fun _ _ => compliantCritique) (fun _ _ _ => Except.ok "unused") "p" "d" none
    (by decide)

/-- Boolean `contains` agrees with list membership. -/
theorem contains_true_iff (as : List String) (x : String) :
    as.contains x = true ↔ x ∈ as :=
  List.elem_iff

/-- `validateLaws` succeeds exactly by returning its input, and then every
element satisfies the pydantic constraints. -/
theorem validateLaws_ok (ls : List Law) : ∀ vs : List Law,
    validateLaws ls = Except.ok vs →
    vs = ls ∧ ∀ l ∈ ls, l.id ≠ "" ∧ l.text ≠ "" := by
  induction ls with
  | nil =>
    intro vs h
    simp only [validateLaws] at h
    cases h
    exact ⟨rfl, by simp⟩
  | cons l rest ih =>
    intro vs h
    simp only [validateLaws] at h
    cases hv : validateLaw l with
    | error e => rw [hv] at h; cases h
    | ok v =>
      rw [hv] at h
      cases hr : validateLaws rest with
      | error e => rw [hr] at h; cases h
      | ok vs' =>
        rw [hr] at h
        cases h
        have hvl : v = l ∧ l.id ≠ "" ∧ l.text ≠ "" := by
          by_cases h1 : l.id = ""
          · simp [validateLaw, h1] at hv
          · by_cases h2 : l.text = ""
            · simp [validateLaw, h1, h2] at hv
            · simp [validateLaw, h1, h2] at hv
              exact ⟨hv.symm, h1, h2⟩
        obtain ⟨hrest, hall⟩ := ih vs' hr
        refine ⟨by rw [hvl.1, hrest], ?_⟩
        intro x hx
        rcases List.mem_cons.mp hx with hx1 | hx2
        · subst hx1
          exact hvl.2
        · exact hall x hx2

/-- A successful duplicate check appends exactly the file's laws and keeps
the loaded-id set synchronized with the accumulated laws, preserving
distinctness. -/
theorem checkDupLaws_ok (path : String) (ls : List Law) :
    ∀ (ids : List String) (acc acc' : List Law) (ids' : List String),
    (∀ i : String, i ∈ ids ↔ i ∈ acc.map Law.id) →
    (acc.map Law.id).Nodup →
    checkDupLaws path ids acc ls = Except.ok (acc', ids') →
    acc' = acc ++ ls
    ∧ (∀ i : String, i ∈ ids' ↔ i ∈ acc'.map Law.id)
    ∧ (acc'.map Law.id).Nodup := by
  induction ls with
  | nil =>
    intro ids acc acc' ids' hids hnd h
    simp only [checkDupLaws] at h
    cases h
    exact ⟨by simp, hids, hnd⟩
  | cons l rest ih =>
    intro ids acc acc' ids' hids hnd h
    simp only [checkDupLaws] at h
    by_cases hc : ids.contains l.id = true
    · rw [if_pos hc] at h; cases h
    · rw [if_neg hc] at h
      have hnotmem : l.id ∉ acc.map Law.id := fun hm =>
        hc ((contains_true_iff ids l.id).mpr ((hids l.id).mpr hm))
      have hids2 : ∀ i : String, i ∈ (l.id :: ids) ↔ i ∈ (acc ++ [l]).map Law.id := by
        intro i
        rw [List.map_append, List.mem_append, List.mem_cons]
        constructor
        · rintro (hi | hi)
          · right
            simp [hi]
          · left
            exact (hids i).mp hi
        · rintro (hi | hi)
          · right
            exact (hids i).mpr hi
          · left
            simpa using hi
      have hnd2 : ((acc ++ [l]).map Law.id).Nodup := by
        simp [List.map_append, List.nodup_append, hnd, hnotmem]
      obtain ⟨happ, hi', hn'⟩ := ih (l.id :: ids) (acc ++ [l]) acc' ids' hids2 hnd2 h
      exact ⟨by simp [happ], hi', hn'⟩

/-- Counterpart of `checkDupLaws_ok` for sentinel rules. -/
theorem checkDupRules_ok (path : String) (rs : List SentinelRule) :
    ∀ (ids : List String) (acc acc' : List SentinelRule) (ids' : List String),
    (∀ i : String, i ∈ ids ↔ i ∈ acc.map SentinelRule.id) →
    (acc.map SentinelRule.id).Nodup →
    checkDupRules path ids acc rs = Except.ok (acc', ids') →
    acc' = acc ++ rs
    ∧ (∀ i : String, i ∈ ids' ↔ i ∈ acc'.map SentinelRule.id)
    ∧ (acc'.map SentinelRule.id).Nodup := by
  induction rs with
  | nil =>
    intro ids acc acc' ids' hids hnd h
    simp only [checkDupRules] at h
    cases h
    exact ⟨by simp, hids, hnd⟩
  | cons r rest ih =>
    intro ids acc acc' ids' hids hnd h
    simp only [checkDupRules] at h
    by_cases hc : ids.contains r.id = true
    · rw [if_pos hc] at h; cases h
    · rw [if_neg hc] at h
      have hnotmem : r.id ∉ acc.map SentinelRule.id := fun hm =>
        hc ((contains_true_iff ids r.id).mpr ((hids r.id).mpr hm))
      have hids2 : ∀ i : String,
          i ∈ (r.id :: ids) ↔ i ∈ (acc ++ [r]).map SentinelRule.id := by
        intro i
        rw [List.map_append, List.mem_append, List.mem_cons]
        constructor
        · rintro (hi | hi)
          · right
            simp [hi]
          · left
            exact (hids i).mp hi
        · rintro (hi | hi)
          · right
            exact (hids i).mpr hi
          · left
            simpa using hi
      have hnd2 : ((acc ++ [r]).map SentinelRule.id).Nodup := by
        simp [List.map_append, List.nodup_append, hnd, hnotmem]
      obtain ⟨happ, hi', hn'⟩ := ih (r.id :: ids) (acc ++ [r]) acc' ids' hids2 hnd2 h
      exact ⟨by simp [happ], hi', hn'⟩

/-- `validateLaw` succeeds exactly on valid laws, returning the law. -/
theorem validateLaw_ok (l v : Law) (h : validateLaw l = Except.ok v) :
    v = l ∧ l.id ≠ "" ∧ l.text ≠ "" := by
  by_cases h1 : l.id = ""
  · simp [validateLaw, h1] at h
  · by_cases h2 : l.text = ""
    · simp [validateLaw, h1, h2] at h
    · simp [validateLaw, h1, h2] at h
      exact ⟨h.symm, h1, h2⟩

/-- Laws coming out of a successful file parse satisfy the pydantic
constraints. -/
theorem parseFile_ok_valid (entry : FileEntry) (nl : List Law)
    (nr : List SentinelRule) (vo : Option String)
    (h : parseFile entry = Except.ok (nl, nr, vo)) :
    ∀ l ∈ nl, l.id ≠ "" ∧ l.text ≠ "" := by
  cases entry with
  | malformed m => simp [parseFile] at h
  | constitution v laws rules =>
    simp only [parseFile] at h
    cases hv : validateLaws laws with
    | error e => rw [hv] at h; exact Except.noConfusion h
    | ok ls =>
      rw [hv] at h
      cases hr : validateRules rules with
      | error e => rw [hr] at h; exact Except.noConfusion h
      | ok rs =>
        rw [hr] at h
        cases h
        obtain ⟨heq, hval⟩ := validateLaws_ok laws nl hv
        exact heq ▸ hval
  | lawList laws =>
    simp only [parseFile] at h
    cases hv : validateLaws laws with
    | error e => rw [hv] at h; exact Except.noConfusion h
    | ok ls =>
      rw [hv] at h
      cases h
      obtain ⟨heq, hval⟩ := validateLaws_ok laws nl hv
      exact heq ▸ hval
  | singleLaw l =>
    simp only [parseFile] at h
    cases hv : validateLaw l with
    | error e => rw [hv] at h; exact Except.noConfusion h
    | ok v =>
      rw [hv] at h
      cases h
      obtain ⟨heq, hval⟩ := validateLaw_ok l v hv
      intro x hx
      rcases List.mem_singleton.mp hx with rfl
      exact heq ▸ hval

/-- Whatever state the file loop aborts in has the laws and sentinel rules
of the archive it started from: only the version field is touched before
publication. -/
theorem loadGo_error_state (files : List (String × FileEntry)) :
    ∀ (cur : LegislativeArchive) (lls : List Law) (ids : List String)
      (lrs : List SentinelRule) (rids : List String) (e : String)
      (a' : LegislativeArchive),
    loadGo cur lls ids lrs rids files = Except.error (e, a') →
    a'.laws = cur.laws ∧ a'.sentinelRules = cur.sentinelRules := by
  induction files with
  | nil =>
    intro cur lls ids lrs rids e a' h
    simp only [loadGo] at h
    exact Except.noConfusion h
  | cons pe rest ih =>
    obtain ⟨p0, e0⟩ := pe
    intro cur lls ids lrs rids e a' h
    simp only [loadGo] at h
    cases hp : parseFile e0 with
    | error e1 =>
      rw [hp] at h
      dsimp only at h
      cases h
      exact ⟨rfl, rfl⟩
    | ok t =>
      obtain ⟨nl, nr, vo⟩ := t
      rw [hp] at h
      dsimp only at h
      cases vo with
      | none =>
        cases hc1 : checkDupLaws p0 ids lls nl with
        | error e1 =>
          rw [hc1] at h
          dsimp only at h
          cases h
          exact ⟨rfl, rfl⟩
        | ok t1 =>
          obtain ⟨lls1, ids1⟩ := t1
          rw [hc1] at h
          dsimp only at h
          cases hc2 : checkDupRules p0 rids lrs nr with
          | error e2 =>
            rw [hc2] at h
            dsimp only at h
            cases h
            exact ⟨rfl, rfl⟩
          | ok t2 =>
            obtain ⟨lrs1, rids1⟩ := t2
            rw [hc2] at h
            dsimp only at h
            exact ih cur lls1 ids1 lrs1 rids1 e a' h
      | some v =>
        cases hc1 : checkDupLaws p0 ids lls nl with
        | error e1 =>
          rw [hc1] at h
          dsimp only at h
          cases h
          exact ⟨rfl, rfl⟩
        | ok t1 =>
          obtain ⟨lls1, ids1⟩ := t1
          rw [hc1] at h
          dsimp only at h
          cases hc2 : checkDupRules p0 rids lrs nr with
          | error e2 =>
            rw [hc2] at h
            dsimp only at h
            cases h
            exact ⟨rfl, rfl⟩
          | ok t2 =>
            obtain ⟨lrs1, rids1⟩ := t2
            rw [hc2] at h
            dsimp only at h
            exact ih { cur with version := v } lls1 ids1 lrs1 rids1 e a' h

/-- A malformed file anywhere in the listing makes the file loop fail. -/
theorem loadGo_malformed (files : List (String × FileEntry)) :
    ∀ (cur : LegislativeArchive) (lls : List Law) (ids : List String)
      (lrs : List SentinelRule) (rids : List String) (path m : String),
    (path, FileEntry.malformed m) ∈ files →
    ∃ p, loadGo cur lls ids lrs rids files = Except.error p := by
  induction files with
  | nil =>
    intro cur lls ids lrs rids path m hmem
    simp at hmem
  | cons pe rest ih =>
    obtain ⟨p0, e0⟩ := pe
    intro cur lls ids lrs rids path m hmem
    rcases List.mem_cons.mp hmem with hhead | htail
    · cases hhead
      exact ⟨_, rfl⟩
    · cases hp : parseFile e0 with
      | error e1 =>
        exact ⟨("Failed to parse " ++ p0 ++ ": " ++ e1, cur), by simp [loadGo, hp]⟩
      | ok t =>
        obtain ⟨nl, nr, vo⟩ := t
        cases vo with
        | none =>
          cases hc1 : checkDupLaws p0 ids lls nl with
          | error e1 =>
            exact ⟨("Failed to parse " ++ p0 ++ ": " ++ e1, cur),
              by simp [loadGo, hp, hc1]⟩
          | ok t1 =>
            obtain ⟨lls1, ids1⟩ := t1
            cases hc2 : checkDupRules p0 rids lrs nr with
            | error e2 =>
              exact ⟨("Failed to parse " ++ p0 ++ ": " ++ e2, cur),
                by simp [loadGo, hp, hc1, hc2]⟩
            | ok t2 =>
              obtain ⟨lrs1, rids1⟩ := t2
              obtain ⟨p, hrec⟩ := ih cur lls1 ids1 lrs1 rids1 path m htail
              exact ⟨p, by simp [loadGo, hp, hc1, hc2, hrec]⟩
        | some v =>
          cases hc1 : checkDupLaws p0 ids lls nl with
          | error e1 =>
            exact ⟨("Failed to parse " ++ p0 ++ ": " ++ e1, { cur with version := v }),
              by simp [loadGo, hp, hc1]⟩
          | ok t1 =>
            obtain ⟨lls1, ids1⟩ := t1
            cases hc2 : checkDupRules p0 rids lrs nr with
            | error e2 =>
              exact ⟨("Failed to parse " ++ p0 ++ ": " ++ e2, { cur with version := v }),
                by simp [loadGo, hp, hc1, hc2]⟩
            | ok t2 =>
              obtain ⟨lrs1, rids1⟩ := t2
              obtain ⟨p, hrec⟩ := ih { cur with version := v } lls1 ids1 lrs1 rids1 path m htail
              exact ⟨p, by simp [loadGo, hp, hc1, hc2, hrec]⟩

/-- A successful file loop publishes laws with pairwise-distinct ids, all
valid, and sentinel rules with pairwise-distinct ids: the loaded-id sets
track the accumulated artifacts throughout. -/
theorem loadGo_ok_invariant (files : List (String × FileEntry)) :
    ∀ (cur : LegislativeArchive) (lls : List Law) (ids : List String)
      (lrs : List SentinelRule) (rids : List String) (a' : LegislativeArchive),
    (∀ i : String, i ∈ ids ↔ i ∈ lls.map Law.id) →
    (lls.map Law.id).Nodup →
    (∀ l ∈ lls, l.id ≠ "" ∧ l.text ≠ "") →
    (∀ i : String, i ∈ rids ↔ i ∈ lrs.map SentinelRule.id) →
    (lrs.map SentinelRule.id).Nodup →
    loadGo cur lls ids lrs rids files = Except.ok a' →
    (a'.laws.map Law.id).Nodup ∧ (∀ l ∈ a'.laws, l.id ≠ "" ∧ l.text ≠ "")
    ∧ (a'.sentinelRules.map SentinelRule.id).Nodup := by
  induction files with
  | nil =>
    intro cur lls ids lrs rids a' hids hnd hval hrids hrnd h
    simp only [loadGo] at h
    cases h
    exact ⟨hnd, hval, hrnd⟩
  | cons pe rest ih =>
    obtain ⟨p0, e0⟩ := pe
    intro cur lls ids lrs rids a' hids hnd hval hrids hrnd h
    simp only [loadGo] at h
    cases hp : parseFile e0 with
    | error e1 =>
      rw [hp] at h
      dsimp only at h
      exact Except.noConfusion h
    | ok t =>
      obtain ⟨nl, nr, vo⟩ := t
      rw [hp] at h
      dsimp only at h
      have hnlval : ∀ l ∈ nl, l.id ≠ "" ∧ l.text ≠ "" := parseFile_ok_valid e0 nl nr vo hp
      cases vo with
      | none =>
        cases hc1 : checkDupLaws p0 ids lls nl with
        | error e1 =>
          rw [hc1] at h
          dsimp only at h
          exact Except.noConfusion h
        | ok t1 =>
          obtain ⟨lls1, ids1⟩ := t1
          rw [hc1] at h
          dsimp only at h
          obtain ⟨happ1, hids1, hnd1⟩ := checkDupLaws_ok p0 nl ids lls lls1 ids1 hids hnd hc1
          have hval1 : ∀ l ∈ lls1, l.id ≠ "" ∧ l.text ≠ "" := by
            intro l hl
            rw [happ1] at hl
            rcases List.mem_append.mp hl with hl | hl
            · exact hval l hl
            · exact hnlval l hl
          cases hc2 : checkDupRules p0 rids lrs nr with
          | error e2 =>
            rw [hc2] at h
            dsimp only at h
            exact Except.noConfusion h
          | ok t2 =>
            obtain ⟨lrs1, rids1⟩ := t2
            rw [hc2] at h
            dsimp only at h
            obtain ⟨happ2, hrids1, hrnd1⟩ := checkDupRules_ok p0 nr rids lrs lrs1 rids1 hrids hrnd hc2
            exact ih cur lls1 ids1 lrs1 rids1 a' hids1 hnd1 hval1 hrids1 hrnd1 h
      | some v =>
        cases hc1 : checkDupLaws p0 ids lls nl with
        | error e1 =>
          rw [hc1] at h
          dsimp only at h
          exact Except.noConfusion h
        | ok t1 =>
          obtain ⟨lls1, ids1⟩ := t1
          rw [hc1] at h
          dsimp only at h
          obtain ⟨happ1, hids1, hnd1⟩ := checkDupLaws_ok p0 nl ids lls lls1 ids1 hids hnd hc1
          have hval1 : ∀ l ∈ lls1, l.id ≠ "" ∧ l.text ≠ "" := by
            intro l hl
            rw [happ1] at hl
            rcases List.mem_append.mp hl with hl | hl
            · exact hval l hl
            · exact hnlval l hl
          cases hc2 : checkDupRules p0 rids lrs nr with
          | error e2 =>
            rw [hc2] at h
            dsimp only at h
            exact Except.noConfusion h
          | ok t2 =>
            obtain ⟨lrs1, rids1⟩ := t2
            rw [hc2] at h
            dsimp only at h
            obtain ⟨happ2, hrids1, hrnd1⟩ := checkDupRules_ok p0 nr rids lrs lrs1 rids1 hrids hrnd hc2
            exact ih { cur with version := v } lls1 ids1 lrs1 rids1 a' hids1 hnd1 hval1 hrids1 hrnd1 h

/-- Claim C4 counterexample: loading a single constitution file carrying a
duplicate law id fails with the duplicate-id error, but the archive object
is left with the failed file's version `"9.9"` instead of its previous
`"0.0.0"` — `self._version` is assigned before the duplicate check, so the
previously-published version is NOT preserved (laws and rules are). -/
theorem c4_counterexample :
    emptyArchive.load_from_directory
        (some [("laws.json", FileEntry.constitution "9.9" [fixtureLaw, fixtureLaw] [])])
      = Except.error
          ("Failed to parse laws.json: Duplicate Law ID detected: DUP.1 in laws.json",
            { laws := [], sentinelRules := [], version := "9.9" })
    ∧ ("9.9" : String) ≠ "0.0.0" := by
  exact ⟨rfl, by decide⟩


/-- `validateRules` succeeds exactly by returning its input. -/
theorem validateRules_ok (rs : List SentinelRule) : ∀ vs : List SentinelRule,
    validateRules rs = Except.ok vs → vs = rs := by
  induction rs with
  | nil =>
    intro vs h
    simp only [validateRules] at h
    cases h
    rfl
  | cons r rest ih =>
    intro vs h
    simp only [validateRules] at h
    cases hv : validateRule r with
    | error e => rw [hv] at h; exact Except.noConfusion h
    | ok v =>
      rw [hv] at h
      cases hr : validateRules rest with
      | error e => rw [hr] at h; exact Except.noConfusion h
      | ok vs' =>
        rw [hr] at h
        cases h
        have hvr : v = r := by
          by_cases h1 : r.id = ""
          · simp [validateRule, h1] at hv
          · simp [validateRule, h1] at hv
            exact hv.symm
        rw [hvr, ih vs' hr]

/-- A successful file parse returns exactly the file's laws and rules. -/
theorem parseFile_ok_shape (entry : FileEntry) (nl : List Law)
    (nr : List SentinelRule) (vo : Option String)
    (h : parseFile entry = Except.ok (nl, nr, vo)) :
    nl = fileLaws entry ∧ nr = fileRules entry := by
  cases entry with
  | malformed m => simp [parseFile] at h
  | constitution v laws rules =>
    simp only [parseFile] at h
    cases hv : validateLaws laws with
    | error e => rw [hv] at h; exact Except.noConfusion h
    | ok ls =>
      rw [hv] at h
      cases hr : validateRules rules with
      | error e => rw [hr] at h; exact Except.noConfusion h
      | ok rs =>
        rw [hr] at h
        cases h
        exact ⟨(validateLaws_ok laws nl hv).1, validateRules_ok rules nr hr⟩
  | lawList laws =>
    simp only [parseFile] at h
    cases hv : validateLaws laws with
    | error e => rw [hv] at h; exact Except.noConfusion h
    | ok ls =>
      rw [hv] at h
      cases h
      exact ⟨(validateLaws_ok laws nl hv).1, rfl⟩
  | singleLaw l =>
    simp only [parseFile] at h
    cases hv : validateLaw l with
    | error e => rw [hv] at h; exact Except.noConfusion h
    | ok v =>
      rw [hv] at h
      cases h
      have := (validateLaw_ok l v hv).1
      exact ⟨by rw [this]; rfl, rfl⟩

/-- A successful duplicate check appends exactly the file's laws (shape
only, no invariant hypotheses). -/
theorem checkDupLaws_ok_append (path : String) (ls : List Law) :
    ∀ (ids : List String) (acc acc' : List Law) (ids' : List String),
    checkDupLaws path ids acc ls = Except.ok (acc', ids') →
    acc' = acc ++ ls := by
  induction ls with
  | nil =>
    intro ids acc acc' ids' h
    simp only [checkDupLaws] at h
    cases h
    simp
  | cons l rest ih =>
    intro ids acc acc' ids' h
    simp only [checkDupLaws] at h
    by_cases hc : ids.contains l.id = true
    · rw [if_pos hc] at h
      exact Except.noConfusion h
    · rw [if_neg hc] at h
      have := ih (l.id :: ids) (acc ++ [l]) acc' ids' h
      simp [this]

/-- Counterpart of `checkDupLaws_ok_append` for sentinel rules. -/
theorem checkDupRules_ok_append (path : String) (rs : List SentinelRule) :
    ∀ (ids : List String) (acc acc' : List SentinelRule) (ids' : List String),
    checkDupRules path ids acc rs = Except.ok (acc', ids') →
    acc' = acc ++ rs := by
  induction rs with
  | nil =>
    intro ids acc acc' ids' h
    simp only [checkDupRules] at h
    cases h
    simp
  | cons r rest ih =>
    intro ids acc acc' ids' h
    simp only [checkDupRules] at h
    by_cases hc : ids.contains r.id = true
    · rw [if_pos hc] at h
      exact Except.noConfusion h
    · rw [if_neg hc] at h
      have := ih (r.id :: ids) (acc ++ [r]) acc' ids' h
      simp [this]

/-- A successful file loop publishes exactly the accumulated laws and rules
followed by every law and rule of every file in the listing: nothing is
dropped, so the artifacts of the input all reach the published archive. -/
theorem loadGo_ok_laws (files : List (String × FileEntry)) :
    ∀ (cur : LegislativeArchive) (lls : List Law) (ids : List String)
      (lrs : List SentinelRule) (rids : List String) (a' : LegislativeArchive),
    loadGo cur lls ids lrs rids files = Except.ok a' →
    a'.laws = lls ++ dirLaws files ∧ a'.sentinelRules = lrs ++ dirRules files := by
  induction files with
  | nil =>
    intro cur lls ids lrs rids a' h
    simp only [loadGo] at h
    cases h
    simp [dirLaws, dirRules]
  | cons pe rest ih =>
    obtain ⟨p0, e0⟩ := pe
    intro cur lls ids lrs rids a' h
    simp only [loadGo] at h
    cases hp : parseFile e0 with
    | error e1 =>
      rw [hp] at h
      dsimp only at h
      exact Except.noConfusion h
    | ok t =>
      obtain ⟨nl, nr, vo⟩ := t
      rw [hp] at h
      dsimp only at h
      obtain ⟨hnl, hnr⟩ := parseFile_ok_shape e0 nl nr vo hp
      cases vo with
      | none =>
        cases hc1 : checkDupLaws p0 ids lls nl with
        | error e1 =>
          rw [hc1] at h
          dsimp only at h
          exact Except.noConfusion h
        | ok t1 =>
          obtain ⟨lls1, ids1⟩ := t1
          rw [hc1] at h
          dsimp only at h
          cases hc2 : checkDupRules p0 rids lrs nr with
          | error e2 =>
            rw [hc2] at h
            dsimp only at h
            exact Except.noConfusion h
          | ok t2 =>
            obtain ⟨lrs1, rids1⟩ := t2
            rw [hc2] at h
            dsimp only at h
            obtain ⟨hl, hr⟩ := ih cur lls1 ids1 lrs1 rids1 a' h
            rw [checkDupLaws_ok_append p0 nl ids lls lls1 ids1 hc1] at hl
            rw [checkDupRules_ok_append p0 nr rids lrs lrs1 rids1 hc2] at hr
            rw [hl, hr, hnl, hnr]
            simp [dirLaws, dirRules]
      | some v =>
        cases hc1 : checkDupLaws p0 ids lls nl with
        | error e1 =>
          rw [hc1] at h
          dsimp only at h
          exact Except.noConfusion h
        | ok t1 =>
          obtain ⟨lls1, ids1⟩ := t1
          rw [hc1] at h
          dsimp only at h
          cases hc2 : checkDupRules p0 rids lrs nr with
          | error e2 =>
            rw [hc2] at h
            dsimp only at h
            exact Except.noConfusion h
          | ok t2 =>
            obtain ⟨lrs1, rids1⟩ := t2
            rw [hc2] at h
            dsimp only at h
            obtain ⟨hl, hr⟩ := ih { cur with version := v } lls1 ids1 lrs1 rids1 a' h
            rw [checkDupLaws_ok_append p0 nl ids lls lls1 ids1 hc1] at hl
            rw [checkDupRules_ok_append p0 nr rids lrs lrs1 rids1 hc2] at hr
            rw [hl, hr, hnl, hnr]
            simp [dirLaws, dirRules]

/-- Claim C4 amended: archive load is all-or-nothing for the laws and
sentinel rules.  Every failure cause of the claim forces a load error,
universally: a missing root, a malformed file anywhere in the listing, a
law id appearing twice across any combination of files, a sentinel-rule id
appearing twice, or a law element failing validation.  On any failure the
previously-held laws and sentinel rules are intact, and a successful load
publishes distinct-id, validated artifacts.  The previously-published
`version`, however, is not protected: it may retain a version read before
the failure. -/
theorem c4_load_all_or_nothing_amended (a : LegislativeArchive)
    (dir : Option (List (String × FileEntry))) :
    (∀ (e : String) (a' : LegislativeArchive),
        a.load_from_directory dir = Except.error (e, a') →
        a'.laws = a.laws ∧ a'.sentinelRules = a.sentinelRules)
    ∧ (dir = none → ∃ p, a.load_from_directory dir = Except.error p)
    ∧ (∀ (files : List (String × FileEntry)) (path m : String),
        dir = some files → (path, FileEntry.malformed m) ∈ files →
        ∃ p, a.load_from_directory dir = Except.error p)
    ∧ (∀ a' : LegislativeArchive, a.load_from_directory dir = Except.ok a' →
        (a'.laws.map Law.id).Nodup ∧ (∀ l ∈ a'.laws, l.id ≠ "" ∧ l.text ≠ "")
        ∧ (a'.sentinelRules.map SentinelRule.id).Nodup)
    ∧ (∀ files : List (String × FileEntry), dir = some files →
        ¬ ((dirLaws files).map Law.id).Nodup →
        ∃ p, a.load_from_directory dir = Except.error p)
    ∧ (∀ files : List (String × FileEntry), dir = some files →
        ¬ ((dirRules files).map SentinelRule.id).Nodup →
        ∃ p, a.load_from_directory dir = Except.error p)
    ∧ (∀ (files : List (String × FileEntry)) (l : Law), dir = some files →
        l ∈ dirLaws files → (l.id = "" ∨ l.text = "") →
        ∃ p, a.load_from_directory dir = Except.error p) := by
  refine ⟨?_, ?_, ?_, ?_, ?_, ?_, ?_⟩
  · intro e a' h
    cases dir with
    | none =>
      simp only [LegislativeArchive.load_from_directory] at h
      cases h
      exact ⟨rfl, rfl⟩
    | some files =>
      simp only [LegislativeArchive.load_from_directory] at h
      exact loadGo_error_state files a [] [] [] [] e a' h
  · intro hdir
    subst hdir
    exact ⟨("Directory not found", a), rfl⟩
  · intro files path m hdir hmem
    subst hdir
    simp only [LegislativeArchive.load_from_directory]
    exact loadGo_malformed files a [] [] [] [] path m hmem
  · intro a' h
    cases dir with
    | none =>
      simp only [LegislativeArchive.load_from_directory] at h
      exact Except.noConfusion h
    | some files =>
      simp only [LegislativeArchive.load_from_directory] at h
      exact loadGo_ok_invariant files a [] [] [] [] a'
        (by simp) (by simp) (by simp) (by simp) (by simp) h
  · intro files hdir hdup
    subst hdir
    cases hres : loadGo a [] [] [] [] files with
    | error p => exact ⟨p, hres⟩
    | ok a' =>
      exfalso
      obtain ⟨hl, _⟩ := loadGo_ok_laws files a [] [] [] [] a' hres
      obtain ⟨hnd, _, _⟩ := loadGo_ok_invariant files a [] [] [] [] a'
        (by simp) (by simp) (by simp) (by simp) (by simp) hres
      rw [hl] at hnd
      simp only [List.nil_append] at hnd
      exact hdup hnd
  · intro files hdir hdup
    subst hdir
    cases hres : loadGo a [] [] [] [] files with
    | error p => exact ⟨p, hres⟩
    | ok a' =>
      exfalso
      obtain ⟨_, hr⟩ := loadGo_ok_laws files a [] [] [] [] a' hres
      obtain ⟨_, _, hrnd⟩ := loadGo_ok_invariant files a [] [] [] [] a'
        (by simp) (by simp) (by simp) (by simp) (by simp) hres
      rw [hr] at hrnd
      simp only [List.nil_append] at hrnd
      exact hdup hrnd
  · intro files l hdir hmem hbad
    subst hdir
    cases hres : loadGo a [] [] [] [] files with
    | error p => exact ⟨p, hres⟩
    | ok a' =>
      exfalso
      obtain ⟨hl, _⟩ := loadGo_ok_laws files a [] [] [] [] a' hres
      obtain ⟨_, hval, _⟩ := loadGo_ok_invariant files a [] [] [] [] a'
        (by simp) (by simp) (by simp) (by simp) (by simp) hres
      have hmem' : l ∈ a'.laws := by
        rw [hl]
        simpa using hmem
      obtain ⟨h1, h2⟩ := hval l hmem'
      rcases hbad with hb | hb
      · exact h1 hb
      · exact h2 hb

/-- Witness for the amended C4: a malformed file in a concrete listing
aborts the load with the previous (empty) laws and rules kept, and a law
id duplicated across two concrete files aborts the load. -/
theorem c4_load_all_or_nothing_amended_witness :
    (∃ p, emptyArchive.load_from_directory
        (some [("bad.json", FileEntry.malformed "Expecting value")])
      = Except.error p)
    ∧ (∀ (e : String) (a' : LegislativeArchive),
        emptyArchive.load_from_directory
            (some [("bad.json", FileEntry.malformed "Expecting value")])
          = Except.error (e, a') →
        a'.laws = emptyArchive.laws ∧ a'.sentinelRules = emptyArchive.sentinelRules)
    ∧ (∃ p, emptyArchive.load_from_directory
        (some [("a.json", FileEntry.lawList [fixtureLaw]),
               ("b.json", FileEntry.lawList [fixtureLaw])])
      = Except.error p) := by
  have h1 := c4_load_all_or_nothing_amended emptyArchive
    (some [("bad.json", FileEntry.malformed "Expecting value")])
  have h2 := c4_load_all_or_nothing_amended emptyArchive
    (some [("a.json", FileEntry.lawList [fixtureLaw]),
           ("b.json", FileEntry.lawList [fixtureLaw])])
  refine ⟨h1.2.2.1 [("bad.json", FileEntry.malformed "Expecting value")]
    "bad.json" "Expecting value" rfl (by simp), h1.1, ?_⟩
  exact h2.2.2.2.2.1 [("a.json", FileEntry.lawList [fixtureLaw]),
    ("b.json", FileEntry.lawList [fixtureLaw])] rfl (by decide)
